import Mathlib

/-!
Verification of the `GrpcStreamManager` reconnection state machine.

Shallow embedding of `src/src/lib.rs` (the `solana-grpc` crate): the
`GrpcStreamManager` struct, its `connect` loop (subscription, receive
loop, update dispatch, ping keepalive) and its `reconnect` backoff logic.

Modelling conventions:
* `Duration` values are natural numbers of seconds (the source only uses
  `Duration::from_secs` and multiplies a duration by a `u32`).
* The opaque `SubscribeRequest` filter is a `Nat`; the code never
  inspects it, only clones and resends it.
* The transaction payload (`SubscribeUpdateTransaction`) is a `Nat`;
  the code only forwards it to the handler.
* The environment (the external transport) is a script: a list of
  connection `Episode`s, each telling whether `subscribe_with_request`
  succeeds, which stream items `stream.next()` yields (an exhausted list
  is the stream yielding `None`), and the outcomes of the outbound
  `subscribe_tx.send` calls (consumed one per ping; an exhausted list
  means the send succeeds).
* Counter arithmetic is on `Nat`: `reconnect_attempts : u32` is
  incremented only under the guard `reconnect_attempts <
  max_reconnect_attempts ≤ 2^32 - 1`, so the `+= 1` can never wrap.
* The observable behaviour of a run is a trace of `Act`s recorded
  exactly where the source performs the corresponding statement:
  the `subscribe_with_request` call, the `is_connected` assignments,
  the `reconnect_attempts = 0` reset, each handler invocation, each
  outbound ping acknowledgement, and each `tokio::time::sleep`.
* In the source, `reconnect` ends with `Box::pin(self.connect(request))`
  and `connect` can only leave its `loop` by propagating an error with
  `?`; it never returns `Ok`.  Hence the nested recursive frames are
  observationally a single loop (every frame just forwards the innermost
  error), and the interpreter below runs the continuation iteratively on
  the remaining script.
-/

/-- Field-for-field image of the `GrpcStreamManager` struct (minus the
`client` and `tx_handler` collaborators, which carry no state of their
own that the core reads). -/
structure GrpcStreamManager where
  endpoint : String
  is_connected : Bool
  reconnect_attempts : Nat
  max_reconnect_attempts : Nat
  reconnect_interval : Nat
  deriving DecidableEq, Repr

/-- The manager state produced by `GrpcStreamManager::new` (lines 52-60):
`is_connected: false`, `reconnect_attempts: 0`,
`max_reconnect_attempts: 10`, `reconnect_interval: Duration::from_secs(5)`. -/
def newManager (endpoint : String) : GrpcStreamManager :=
  { endpoint := endpoint
  , is_connected := false
  , reconnect_attempts := 0
  , max_reconnect_attempts := 10
  , reconnect_interval := 5 }

/-- The `UpdateOneof` variants the receive loop distinguishes
(lines 79-93): `Transaction(tx)`, `Ping(_)`, `Pong(_)`, and every other
variant of the protobuf oneof, all swallowed by the final `_` arm. -/
inductive UpdateOneof where
  | transaction (tx : Nat)
  | ping
  | pong
  | otherVariant
  deriving DecidableEq, Repr

/-- One item yielded by `stream.next()`: either
`Ok(msg)` with `msg.update_oneof : Option<UpdateOneof>`, or `Err(_)`. -/
inductive StreamItem where
  | ok (u : Option UpdateOneof)
  | streamErr
  deriving DecidableEq, Repr

/-- One connection episode of the environment script: the result of the
`subscribe_with_request` call, the items the stream then yields (after
the list is exhausted the stream yields `None`), and the outcomes of the
outbound `send` calls, consumed one per ping answered. -/
structure Episode where
  subscribeOk : Bool
  items : List StreamItem
  sendResults : List Bool
  deriving DecidableEq, Repr

/-- Observable actions of a run, recorded where the source performs
them.  `sendPingAck` is the outbound
`SubscribeRequest { ping: Some(SubscribeRequestPing { id: 1 }), .. }`
of lines 84-89, carrying its `id` field. -/
inductive Act where
  | subscribeCall (request : Nat)
  | setConnected (b : Bool)
  | resetAttempts
  | handlerCall (tx : Nat) (endpoint : String)
  | sendPingAck (id : Nat)
  | sleep (d : Nat)
  deriving DecidableEq, Repr

/-- The `anyhow::Error` values `connect` can propagate: a failed
`subscribe_with_request` (line 71 `?`), a failed outbound ping
acknowledgement send (line 89 `?`), or the
`"Max reconnection attempts reached"` error (line 114). -/
inductive ConnectError where
  | subscribeFailed
  | sendFailed
  | retryExhausted
  deriving DecidableEq, Repr

/-- How a run ends: `connect` returned `Err e`, or the environment
script was exhausted while the loop was still going (the source's
`connect` never returns `Ok`). -/
inductive RunResult where
  | err (e : ConnectError)
  | outOfScript
  deriving DecidableEq, Repr

/-- Final state, trace and result of an interpreted run. -/
structure RunOut where
  state : GrpcStreamManager
  trace : List Act
  result : RunResult
  deriving DecidableEq, Repr

/-- Outcome of one pass of the inner `while let Some(message) =
stream.next()` loop (lines 76-104), before the manager reacts to it:
the stream ended cleanly (`next()` gave `None`), the stream yielded
`Err(_)` (the `Err` arm already ran its cleanup: `drop`s and
`is_connected = false`, lines 97-99), or an outbound send failed and
its error is being propagated by `?` (line 89). -/
inductive LoopOutcome where
  | cleanEnd (st : GrpcStreamManager) (tr : List Act)
  | errored (st : GrpcStreamManager) (tr : List Act)
  | fatal (st : GrpcStreamManager) (tr : List Act) (e : ConnectError)
  deriving DecidableEq, Repr

/-- Prepend an action to the trace of a loop outcome. -/
def LoopOutcome.consAct (a : Act) : LoopOutcome → LoopOutcome
  | .cleanEnd st tr => .cleanEnd st (a :: tr)
  | .errored st tr => .errored st (a :: tr)
  | .fatal st tr e => .fatal st (a :: tr) e

/-- Pop the next outbound-send outcome; an exhausted oracle means the
send succeeds. -/
def takeSend : List Bool → Bool × List Bool
  | [] => (true, [])
  | b :: bs => (b, bs)

/-- The receive loop of `connect` (lines 76-104): dispatch each stream
item exactly as the `match` on `message` / `msg.update_oneof` does.
`Transaction(tx)` invokes the handler with `(tx, &self.endpoint)`;
`Ping(_)` sends one acknowledgement with `id: 1` (a failed send
propagates via `?`); `Pong(_)` and every other variant do nothing;
`Err(_)` logs, drops both stream halves, sets `is_connected = false`
and leaves the loop to `reconnect`. -/
def receiveLoop (st : GrpcStreamManager) :
    List StreamItem → List Bool → LoopOutcome
  | [], _ => .cleanEnd st []
  | .ok u :: rest, sends =>
    match u with
    | some (.transaction tx) =>
      (receiveLoop st rest sends).consAct (.handlerCall tx st.endpoint)
    | some .ping =>
      let (sendOk, sends') := takeSend sends
      if sendOk then
        (receiveLoop st rest sends').consAct (.sendPingAck 1)
      else
        .fatal st [] .sendFailed
    | some .pong => receiveLoop st rest sends
    | some .otherVariant => receiveLoop st rest sends
    | none => receiveLoop st rest sends
  | .streamErr :: _, _ =>
    .errored { st with is_connected := false } [.setConnected false]

/-- The state assignment performed right after a successful
`subscribe_with_request` (lines 73-74): `self.is_connected = true;
self.reconnect_attempts = 0;`. -/
def afterSubscribe (st : GrpcStreamManager) : GrpcStreamManager :=
  { st with is_connected := true, reconnect_attempts := 0 }

/-- Result of `GrpcStreamManager::reconnect` up to (and not including)
the tail call into `connect`: either the `Err` of line 114, or the
incremented state, the backoff duration slept, and the request passed on
to `connect`. -/
inductive ReconnectResult where
  | retryExhausted
  | proceed (st : GrpcStreamManager) (backoff : Nat) (request : Nat)
  deriving DecidableEq, Repr

/-- `GrpcStreamManager::reconnect` (lines 112-123): if
`reconnect_attempts >= max_reconnect_attempts`, fail immediately;
otherwise `reconnect_attempts += 1`, compute
`backoff = reconnect_interval * min(reconnect_attempts, 5)` (with the
already incremented counter), sleep, and call `connect(request)`. -/
def reconnect (st : GrpcStreamManager) (request : Nat) : ReconnectResult :=
  if st.reconnect_attempts ≥ st.max_reconnect_attempts then
    .retryExhausted
  else
    let st' := { st with reconnect_attempts := st.reconnect_attempts + 1 }
    .proceed st'
      (st'.reconnect_interval * min st'.reconnect_attempts 5)
      request

/-- The trace actions of entering one iteration of `connect`'s outer
`loop` with a successful subscription: the `subscribe_with_request`
call and the two assignments of lines 73-74. -/
def subscribeActs (request : Nat) : List Act :=
  [.subscribeCall request, .setConnected true, .resetAttempts]

/-- `GrpcStreamManager::connect` (lines 67-106) run against an
environment script.  One `Episode` per `subscribe_with_request` call.
A failed subscribe propagates immediately (`?`, line 71).  After a
successful subscribe the receive loop runs; a clean stream end falls
back into the outer `loop` (new subscribe, same request); a stream
error goes through `reconnect`, whose sleep-and-tail-call into
`connect` continues the run on the remaining script (the tail call
never returns `Ok`, so the nested frames behave as this loop); a fatal
send error propagates out of every frame. -/
def connectRun : GrpcStreamManager → List Episode → Nat → RunOut
  | st, [], _ => ⟨st, [], .outOfScript⟩
  | st, ep :: rest, request =>
    if ep.subscribeOk then
      let st1 := afterSubscribe st
      match receiveLoop st1 ep.items ep.sendResults with
      | .cleanEnd st2 tr =>
        let r := connectRun st2 rest request
        ⟨r.state, subscribeActs request ++ tr ++ r.trace, r.result⟩
      | .errored st2 tr =>
        match reconnect st2 request with
        | .retryExhausted =>
          ⟨st2, subscribeActs request ++ tr, .err .retryExhausted⟩
        | .proceed st3 backoff request' =>
          let r := connectRun st3 rest request'
          ⟨r.state, subscribeActs request ++ tr ++ .sleep backoff :: r.trace,
            r.result⟩
      | .fatal st2 tr e =>
        ⟨st2, subscribeActs request ++ tr, .err e⟩
    else
      ⟨st, [.subscribeCall request], .err .subscribeFailed⟩

/-! ## Trace observations and spec-side dispatch -/

/-- Actions the receive loop itself may emit while the stream is healthy:
handler invocations and outbound ping acknowledgements. -/
def streamAct : Act → Bool
  | .handlerCall _ _ => true
  | .sendPingAck _ => true
  | _ => false

/-- Is this action a backoff sleep? -/
def isSleepAct : Act → Bool
  | .sleep _ => true
  | _ => false

/-- Is this action an outbound ping acknowledgement? -/
def isPingAckAct : Act → Bool
  | .sendPingAck _ => true
  | _ => false

/-- Is this stream item a `Ping` update? -/
def isPingItem : StreamItem → Bool
  | .ok (some .ping) => true
  | _ => false

/-- Spec-side dispatch table for one inbound update (§4.2 of the spec):
`Transaction(payload)` invokes the handler tagged with the endpoint
identity, `Ping` emits exactly one acknowledgement with the fixed id 1,
`Pong` and unrecognized updates emit nothing.  Used as the reference
behaviour the receive loop is compared against. -/
def specDispatch (endpoint : String) : StreamItem → List Act
  | .ok (some (.transaction tx)) => [.handlerCall tx endpoint]
  | .ok (some .ping) => [.sendPingAck 1]
  | _ => []

/-- Spec-side dispatch of a whole inbound sequence, in arrival order. -/
def specDispatchAll (endpoint : String) : List StreamItem → List Act
  | [] => []
  | it :: rest => specDispatch endpoint it ++ specDispatchAll endpoint rest

/-- The handler invocations of a trace, in order, with their payload and
endpoint tag. -/
def handlerCallsOf : List Act → List (Nat × String)
  | [] => []
  | .handlerCall tx e :: tr => (tx, e) :: handlerCallsOf tr
  | _ :: tr => handlerCallsOf tr

/-- The transaction payloads of an inbound sequence, in arrival order. -/
def txPayloads : List StreamItem → List Nat
  | [] => []
  | .ok (some (.transaction tx)) :: rest => tx :: txPayloads rest
  | _ :: rest => txPayloads rest

/-- Replay the `is_connected` assignments of a trace, returning the
final flag value. -/
def replayConn (c : Bool) : List Act → Bool
  | [] => c
  | .setConnected b :: tr => replayConn b tr
  | _ :: tr => replayConn c tr

/-- Replay the `is_connected` assignments of a trace and check the flag
discipline: every backoff sleep happens with the flag `false`, every
handler invocation and outbound acknowledgement with the flag `true`. -/
def flagOk (c : Bool) : List Act → Bool
  | [] => true
  | .setConnected b :: tr => flagOk b tr
  | .sleep _ :: tr => !c && flagOk c tr
  | .handlerCall _ _ :: tr => c && flagOk c tr
  | .sendPingAck _ :: tr => c && flagOk c tr
  | .subscribeCall _ :: tr => flagOk c tr
  | .resetAttempts :: tr => flagOk c tr

/-- The backoff duration of a reconnect outcome, if it proceeds. -/
def ReconnectResult.backoffOf : ReconnectResult → Option Nat
  | .retryExhausted => none
  | .proceed _ d _ => some d


/-! ## Receive-loop lemmas -/

theorem consAct_cleanEnd {a : Act} {o : LoopOutcome} {st' : GrpcStreamManager}
    {tr : List Act} (h : o.consAct a = .cleanEnd st' tr) :
    ∃ tr', tr = a :: tr' ∧ o = .cleanEnd st' tr' := by
  cases o with
  | cleanEnd s t =>
    simp only [LoopOutcome.consAct, LoopOutcome.cleanEnd.injEq] at h
    exact ⟨t, h.2.symm, by rw [h.1]⟩
  | errored s t => simp [LoopOutcome.consAct] at h
  | fatal s t e => simp [LoopOutcome.consAct] at h

theorem consAct_fatal {a : Act} {o : LoopOutcome} {st' : GrpcStreamManager}
    {tr : List Act} {e : ConnectError} (h : o.consAct a = .fatal st' tr e) :
    ∃ tr', tr = a :: tr' ∧ o = .fatal st' tr' e := by
  cases o with
  | cleanEnd s t => simp [LoopOutcome.consAct] at h
  | errored s t => simp [LoopOutcome.consAct] at h
  | fatal s t e' =>
    simp only [LoopOutcome.consAct, LoopOutcome.fatal.injEq] at h
    exact ⟨t, h.2.1.symm, by rw [h.1, h.2.2]⟩

theorem consAct_errored {a : Act} {o : LoopOutcome} {st' : GrpcStreamManager}
    {tr : List Act} (h : o.consAct a = .errored st' tr) :
    ∃ tr', tr = a :: tr' ∧ o = .errored st' tr' := by
  cases o with
  | cleanEnd s t => simp [LoopOutcome.consAct] at h
  | errored s t =>
    simp only [LoopOutcome.consAct, LoopOutcome.errored.injEq] at h
    exact ⟨t, h.2.symm, by rw [h.1]⟩
  | fatal s t e => simp [LoopOutcome.consAct] at h

/-- Invariants of one receive-loop pass: a clean end or a fatal send
error leaves the manager state untouched and the trace holds only
handler calls and acknowledgements; a stream error sets `is_connected`
to `false` as its final recorded action and changes nothing else. -/
theorem receiveLoop_inv (st : GrpcStreamManager) (items : List StreamItem) :
    ∀ sends : List Bool,
      (∀ st' tr, receiveLoop st items sends = .cleanEnd st' tr →
          st' = st ∧ ∀ a ∈ tr, streamAct a = true) ∧
      (∀ st' tr e, receiveLoop st items sends = .fatal st' tr e →
          st' = st ∧ e = .sendFailed ∧ ∀ a ∈ tr, streamAct a = true) ∧
      (∀ st' tr, receiveLoop st items sends = .errored st' tr →
          st' = { st with is_connected := false } ∧
          ∃ tr0, tr = tr0 ++ [Act.setConnected false] ∧
            ∀ a ∈ tr0, streamAct a = true) := by
  induction items with
  | nil =>
    intro sends
    refine ⟨?_, ?_, ?_⟩
    · intro st' tr h
      simp only [receiveLoop, LoopOutcome.cleanEnd.injEq] at h
      exact ⟨h.1.symm, by rw [← h.2]; simp⟩
    · intro st' tr e h
      simp [receiveLoop] at h
    · intro st' tr h
      simp [receiveLoop] at h
  | cons it rest ih =>
    intro sends
    match it with
    | .streamErr =>
      refine ⟨?_, ?_, ?_⟩
      · intro st' tr h
        simp [receiveLoop] at h
      · intro st' tr e h
        simp [receiveLoop] at h
      · intro st' tr h
        simp only [receiveLoop, LoopOutcome.errored.injEq] at h
        exact ⟨h.1.symm, [], by rw [← h.2]; simp, by simp⟩
    | .ok none =>
      simpa only [receiveLoop] using ih sends
    | .ok (some .pong) =>
      simpa only [receiveLoop] using ih sends
    | .ok (some .otherVariant) =>
      simpa only [receiveLoop] using ih sends
    | .ok (some (.transaction tx)) =>
      obtain ⟨ihc, ihf, ihe⟩ := ih sends
      refine ⟨?_, ?_, ?_⟩
      · intro st' tr h
        simp only [receiveLoop] at h
        obtain ⟨tr', rfl, hrec⟩ := consAct_cleanEnd h
        obtain ⟨hs, ht⟩ := ihc _ _ hrec
        refine ⟨hs, fun a ha => ?_⟩
        rcases List.mem_cons.mp ha with rfl | ha'
        · rfl
        · exact ht a ha'
      · intro st' tr e h
        simp only [receiveLoop] at h
        obtain ⟨tr', rfl, hrec⟩ := consAct_fatal h
        obtain ⟨hs, he, ht⟩ := ihf _ _ _ hrec
        refine ⟨hs, he, fun a ha => ?_⟩
        rcases List.mem_cons.mp ha with rfl | ha'
        · rfl
        · exact ht a ha'
      · intro st' tr h
        simp only [receiveLoop] at h
        obtain ⟨tr', rfl, hrec⟩ := consAct_errored h
        obtain ⟨hs, tr0, rfl, ht⟩ := ihe _ _ hrec
        refine ⟨hs, Act.handlerCall tx st.endpoint :: tr0, by simp, fun a ha => ?_⟩
        rcases List.mem_cons.mp ha with rfl | ha'
        · rfl
        · exact ht a ha'
    | .ok (some .ping) =>
      have step : ∀ sends' : List Bool,
          (∀ st' tr,
              (receiveLoop st rest sends').consAct (.sendPingAck 1) = .cleanEnd st' tr →
              st' = st ∧ ∀ a ∈ tr, streamAct a = true) ∧
          (∀ st' tr e,
              (receiveLoop st rest sends').consAct (.sendPingAck 1) = .fatal st' tr e →
              st' = st ∧ e = .sendFailed ∧ ∀ a ∈ tr, streamAct a = true) ∧
          (∀ st' tr,
              (receiveLoop st rest sends').consAct (.sendPingAck 1) = .errored st' tr →
              st' = { st with is_connected := false } ∧
              ∃ tr0, tr = tr0 ++ [Act.setConnected false] ∧
                ∀ a ∈ tr0, streamAct a = true) := by
        intro sends'
        obtain ⟨ihc, ihf, ihe⟩ := ih sends'
        refine ⟨?_, ?_, ?_⟩
        · intro st' tr h
          obtain ⟨tr', rfl, hrec⟩ := consAct_cleanEnd h
          obtain ⟨hs, ht⟩ := ihc _ _ hrec
          refine ⟨hs, fun a ha => ?_⟩
          rcases List.mem_cons.mp ha with rfl | ha'
          · rfl
          · exact ht a ha'
        · intro st' tr e h
          obtain ⟨tr', rfl, hrec⟩ := consAct_fatal h
          obtain ⟨hs, he, ht⟩ := ihf _ _ _ hrec
          refine ⟨hs, he, fun a ha => ?_⟩
          rcases List.mem_cons.mp ha with rfl | ha'
          · rfl
          · exact ht a ha'
        · intro st' tr h
          obtain ⟨tr', rfl, hrec⟩ := consAct_errored h
          obtain ⟨hs, tr0, rfl, ht⟩ := ihe _ _ hrec
          refine ⟨hs, Act.sendPingAck 1 :: tr0, by simp, fun a ha => ?_⟩
          rcases List.mem_cons.mp ha with rfl | ha'
          · rfl
          · exact ht a ha'
      match sends with
      | [] =>
        simpa only [receiveLoop, takeSend, if_true] using step []
      | true :: sends' =>
        simpa only [receiveLoop, takeSend, if_true] using step sends'
      | false :: sends' =>
        refine ⟨?_, ?_, ?_⟩
        · intro st' tr h
          simp [receiveLoop, takeSend] at h
        · intro st' tr e h
          simp only [receiveLoop, takeSend, Bool.false_eq_true, if_false,
            LoopOutcome.fatal.injEq] at h
          exact ⟨h.1.symm, h.2.2.symm, by rw [← h.2.1]; simp⟩
        · intro st' tr h
          simp [receiveLoop, takeSend] at h

/-- On an inbound sequence with no stream error, and with every outbound
send succeeding, the receive loop consumes the whole sequence, leaves the
state untouched and behaves exactly as the spec's dispatch table. -/
theorem receiveLoop_clean_spec (st : GrpcStreamManager) (items : List StreamItem) :
    ∀ sends : List Bool, (∀ it ∈ items, it ≠ .streamErr) →
      (∀ b ∈ sends, b = true) →
      receiveLoop st items sends = .cleanEnd st (specDispatchAll st.endpoint items) := by
  induction items with
  | nil =>
    intro sends _ _
    simp [receiveLoop, specDispatchAll]
  | cons it rest ih =>
    intro sends hni hs
    have hrest : ∀ it' ∈ rest, it' ≠ .streamErr :=
      fun it' h => hni it' (List.mem_cons_of_mem _ h)
    match it with
    | .streamErr => exact absurd rfl (hni _ (List.mem_cons_self _ _))
    | .ok none =>
      simp [receiveLoop, specDispatchAll, specDispatch, ih sends hrest hs]
    | .ok (some .pong) =>
      simp [receiveLoop, specDispatchAll, specDispatch, ih sends hrest hs]
    | .ok (some .otherVariant) =>
      simp [receiveLoop, specDispatchAll, specDispatch, ih sends hrest hs]
    | .ok (some (.transaction tx)) =>
      simp [receiveLoop, specDispatchAll, specDispatch, ih sends hrest hs,
        LoopOutcome.consAct]
    | .ok (some .ping) =>
      match sends with
      | [] =>
        simp [receiveLoop, takeSend, specDispatchAll, specDispatch,
          ih [] hrest (by simp), LoopOutcome.consAct]
      | b :: sends' =>
        have hb : b = true := hs b (List.mem_cons_self _ _)
        subst hb
        have hs' : ∀ x ∈ sends', x = true :=
          fun x h => hs x (List.mem_cons_of_mem _ h)
        simp [receiveLoop, takeSend, specDispatchAll, specDispatch,
          ih sends' hrest hs', LoopOutcome.consAct]

/-! ## Flag-replay lemmas -/

theorem replayConn_append (c : Bool) (xs ys : List Act) :
    replayConn c (xs ++ ys) = replayConn (replayConn c xs) ys := by
  induction xs generalizing c with
  | nil => rfl
  | cons a xs ih => cases a <;> simp [replayConn, ih]

theorem flagOk_append (c : Bool) (xs ys : List Act) :
    flagOk c (xs ++ ys) = (flagOk c xs && flagOk (replayConn c xs) ys) := by
  induction xs generalizing c with
  | nil => simp [flagOk, replayConn]
  | cons a xs ih => cases a <;> simp [flagOk, replayConn, ih, Bool.and_assoc]

theorem streamActs_replay {tr : List Act}
    (h : ∀ a ∈ tr, streamAct a = true) (c : Bool) : replayConn c tr = c := by
  induction tr with
  | nil => rfl
  | cons a tr ih =>
    have ha := h a (List.mem_cons_self _ _)
    have hrest := fun x hx => h x (List.mem_cons_of_mem _ hx)
    cases a <;> simp [streamAct] at ha <;> simp [replayConn, ih hrest]

theorem streamActs_flagOk {tr : List Act}
    (h : ∀ a ∈ tr, streamAct a = true) : flagOk true tr = true := by
  induction tr with
  | nil => rfl
  | cons a tr ih =>
    have ha := h a (List.mem_cons_self _ _)
    have hrest := fun x hx => h x (List.mem_cons_of_mem _ hx)
    cases a <;> simp [streamAct] at ha <;> simp [flagOk, ih hrest]

theorem streamActs_no_sleep {tr : List Act}
    (h : ∀ a ∈ tr, streamAct a = true) (d : Nat) : Act.sleep d ∉ tr := by
  intro hd
  have := h _ hd
  simp [streamAct] at this

/-! ## Reconnect inversion lemmas -/

theorem reconnect_proceed_inv {st : GrpcStreamManager} {req : Nat}
    {st3 : GrpcStreamManager} {d req' : Nat}
    (h : reconnect st req = .proceed st3 d req') :
    st.reconnect_attempts < st.max_reconnect_attempts ∧
    st3 = { st with reconnect_attempts := st.reconnect_attempts + 1 } ∧
    d = st.reconnect_interval * min (st.reconnect_attempts + 1) 5 ∧
    req' = req := by
  by_cases hc : st.reconnect_attempts ≥ st.max_reconnect_attempts
  · simp [reconnect, hc] at h
  · simp only [reconnect, hc, if_false, ite_false, ReconnectResult.proceed.injEq] at h
    exact ⟨Nat.lt_of_not_le hc, h.1.symm, h.2.1.symm, h.2.2.symm⟩

theorem reconnect_exhausted_inv {st : GrpcStreamManager} {req : Nat}
    (h : reconnect st req = .retryExhausted) :
    st.max_reconnect_attempts ≤ st.reconnect_attempts := by
  by_cases hc : st.reconnect_attempts ≥ st.max_reconnect_attempts
  · exact hc
  · simp [reconnect, hc] at h

/-! ## Run-level invariants -/

/-- Replaying the `is_connected` assignments of any run trace: every
backoff sleep happens while the flag is `false`, and every handler
invocation or outbound acknowledgement happens while it is `true`. -/
theorem flagOk_connectRun (script : List Episode) :
    ∀ (st : GrpcStreamManager) (req : Nat),
      flagOk st.is_connected (connectRun st script req).trace = true := by
  induction script with
  | nil => intro st req; rfl
  | cons ep rest ih =>
    intro st req
    by_cases hsub : ep.subscribeOk = true
    · simp only [connectRun, hsub, if_true]
      cases hrl : receiveLoop (afterSubscribe st) ep.items ep.sendResults with
      | cleanEnd st2 tr =>
        obtain ⟨hs2, ht⟩ := (receiveLoop_inv _ _ _).1 _ _ hrl
        have h2 : st2.is_connected = true := by rw [hs2]; rfl
        have := ih st2 req
        rw [h2] at this
        simp [subscribeActs, flagOk_append, flagOk, replayConn,
          streamActs_flagOk ht, streamActs_replay ht, this]
      | errored st2 tr =>
        obtain ⟨hs2, tr0, htr, ht0⟩ := (receiveLoop_inv _ _ _).2.2 _ _ hrl
        subst htr
        cases hrc : reconnect st2 req with
        | retryExhausted =>
          dsimp only
          rw [hrc]
          simp [subscribeActs, flagOk_append, flagOk, replayConn,
            streamActs_flagOk ht0, streamActs_replay ht0]
        | proceed st3 d req' =>
          obtain ⟨_, hst3, _, _⟩ := reconnect_proceed_inv hrc
          have h3 : st3.is_connected = false := by rw [hst3, hs2]
          have hflag := ih st3 req'
          rw [h3] at hflag
          dsimp only
          rw [hrc]
          simp [subscribeActs, flagOk_append, flagOk, replayConn,
            replayConn_append, streamActs_flagOk ht0, streamActs_replay ht0,
            hflag]
      | fatal st2 tr e =>
        obtain ⟨hs2, _, ht⟩ := (receiveLoop_inv _ _ _).2.1 _ _ _ hrl
        simp [subscribeActs, flagOk_append, flagOk, replayConn,
          streamActs_flagOk ht]
    · simp only [connectRun, hsub, if_false, Bool.false_eq_true]
      simp [flagOk]

/-- If a run ends with the `RetryExhausted` error, the final manager
state has `is_connected = false`. -/
theorem exhausted_flag_connectRun (script : List Episode) :
    ∀ (st : GrpcStreamManager) (req : Nat),
      (connectRun st script req).result = .err .retryExhausted →
      (connectRun st script req).state.is_connected = false := by
  induction script with
  | nil => intro st req h; simp [connectRun] at h
  | cons ep rest ih =>
    intro st req
    by_cases hsub : ep.subscribeOk = true
    · simp only [connectRun, hsub, if_true]
      cases hrl : receiveLoop (afterSubscribe st) ep.items ep.sendResults with
      | cleanEnd st2 tr =>
        intro h
        exact ih st2 req h
      | errored st2 tr =>
        obtain ⟨hs2, _, _, _⟩ := (receiveLoop_inv _ _ _).2.2 _ _ hrl
        dsimp only
        cases hrc : reconnect st2 req with
        | retryExhausted =>
          intro _
          rw [hs2]
        | proceed st3 d req' =>
          intro h
          exact ih st3 req' h
      | fatal st2 tr e =>
        obtain ⟨_, he, _⟩ := (receiveLoop_inv _ _ _).2.1 _ _ _ hrl
        subst he
        intro h
        simp at h
    · simp only [connectRun, hsub, if_false, Bool.false_eq_true]
      intro h
      simp at h

/-- In any run, whenever `reconnect` is reached the attempt counter has
just been reset by the successful subscription that preceded the stream
error, so with `max_reconnect_attempts ≥ 1` the run never returns
`RetryExhausted` and every backoff sleep lasts exactly one base
interval. -/
theorem connectRun_reset_backoff (script : List Episode) :
    ∀ (st : GrpcStreamManager) (req : Nat),
      1 ≤ st.max_reconnect_attempts →
      (connectRun st script req).result ≠ .err .retryExhausted ∧
      ∀ d, Act.sleep d ∈ (connectRun st script req).trace →
        d = st.reconnect_interval := by
  induction script with
  | nil =>
    intro st req _
    exact ⟨by simp [connectRun], by simp [connectRun]⟩
  | cons ep rest ih =>
    intro st req hmax
    by_cases hsub : ep.subscribeOk = true
    · simp only [connectRun, hsub, if_true]
      cases hrl : receiveLoop (afterSubscribe st) ep.items ep.sendResults with
      | cleanEnd st2 tr =>
        obtain ⟨hs2, ht⟩ := (receiveLoop_inv _ _ _).1 _ _ hrl
        have hmax2 : 1 ≤ st2.max_reconnect_attempts := by
          rw [hs2]; exact hmax
        have hint2 : st2.reconnect_interval = st.reconnect_interval := by
          rw [hs2]; rfl
        obtain ⟨ihr, ihs⟩ := ih st2 req hmax2
        refine ⟨ihr, ?_⟩
        intro d hd
        rcases List.mem_append.mp hd with h | h
        · rcases List.mem_append.mp h with h' | h'
          · exact absurd h' (by simp [subscribeActs])
          · exact absurd h' (streamActs_no_sleep ht d)
        · rw [← hint2]; exact ihs d h
      | errored st2 tr =>
        obtain ⟨hs2, tr0, htr, ht0⟩ := (receiveLoop_inv _ _ _).2.2 _ _ hrl
        have hatt2 : st2.reconnect_attempts = 0 := by
          rw [hs2]; rfl
        have hmax2 : 1 ≤ st2.max_reconnect_attempts := by
          rw [hs2]; exact hmax
        have hint2 : st2.reconnect_interval = st.reconnect_interval := by
          rw [hs2]; rfl
        dsimp only
        cases hrc : reconnect st2 req with
        | retryExhausted =>
          have := reconnect_exhausted_inv hrc
          omega
        | proceed st3 d req' =>
          obtain ⟨_, hst3, hd, hreq⟩ := reconnect_proceed_inv hrc
          have hd5 : d = st.reconnect_interval := by
            rw [hd, hatt2, hint2]
            simp
          have hmax3 : 1 ≤ st3.max_reconnect_attempts := by
            rw [hst3]
            simpa using hmax2
          have hint3 : st3.reconnect_interval = st.reconnect_interval := by
            rw [hst3]
            simpa using hint2
          obtain ⟨ihr, ihs⟩ := ih st3 req' hmax3
          refine ⟨ihr, ?_⟩
          intro d' hd'
          subst htr
          rcases List.mem_append.mp hd' with h | h
          · rcases List.mem_append.mp h with h' | h'
            · exact absurd h' (by simp [subscribeActs])
            · rcases List.mem_append.mp h' with h2 | h2
              · exact absurd h2 (streamActs_no_sleep ht0 d')
              · simp at h2
          · rcases List.mem_cons.mp h with h2 | h2
            · rw [(Act.sleep.injEq _ _).mp h2]
              exact hd5
            · rw [← hint3]; exact ihs d' h2
      | fatal st2 tr e =>
        obtain ⟨_, he, ht⟩ := (receiveLoop_inv _ _ _).2.1 _ _ _ hrl
        subst he
        refine ⟨by simp, ?_⟩
        intro d hd
        rcases List.mem_append.mp hd with h | h
        · exact absurd h (by simp [subscribeActs])
        · exact absurd h (streamActs_no_sleep ht d)
    · simp only [connectRun, hsub, if_false, Bool.false_eq_true]
      exact ⟨by simp, by simp⟩

/-! ## Dispatch-counting lemmas -/

theorem specDispatchAll_acks (e : String) (items : List StreamItem) :
    (specDispatchAll e items).filter isPingAckAct
      = List.replicate (items.countP isPingItem) (Act.sendPingAck 1) := by
  induction items with
  | nil => rfl
  | cons it rest ih =>
    match it with
    | .ok (some (.transaction tx)) =>
      simp [specDispatchAll, specDispatch, isPingAckAct, isPingItem,
        List.countP_cons, ih]
    | .ok (some .ping) =>
      simp [specDispatchAll, specDispatch, isPingAckAct, isPingItem,
        List.countP_cons, List.replicate_succ, ih]
    | .ok (some .pong) =>
      simp [specDispatchAll, specDispatch, isPingAckAct, isPingItem,
        List.countP_cons, ih]
    | .ok (some .otherVariant) =>
      simp [specDispatchAll, specDispatch, isPingAckAct, isPingItem,
        List.countP_cons, ih]
    | .ok none =>
      simp [specDispatchAll, specDispatch, isPingAckAct, isPingItem,
        List.countP_cons, ih]
    | .streamErr =>
      simp [specDispatchAll, specDispatch, isPingAckAct, isPingItem,
        List.countP_cons, ih]

theorem specDispatchAll_handlers (e : String) (items : List StreamItem) :
    handlerCallsOf (specDispatchAll e items)
      = (txPayloads items).map (fun tx => (tx, e)) := by
  induction items with
  | nil => rfl
  | cons it rest ih =>
    match it with
    | .ok (some (.transaction tx)) =>
      simp [specDispatchAll, specDispatch, handlerCallsOf, txPayloads, ih]
    | .ok (some .ping) =>
      simp [specDispatchAll, specDispatch, handlerCallsOf, txPayloads, ih]
    | .ok (some .pong) =>
      simp [specDispatchAll, specDispatch, handlerCallsOf, txPayloads, ih]
    | .ok (some .otherVariant) =>
      simp [specDispatchAll, specDispatch, handlerCallsOf, txPayloads, ih]
    | .ok none =>
      simp [specDispatchAll, specDispatch, handlerCallsOf, txPayloads, ih]
    | .streamErr =>
      simp [specDispatchAll, specDispatch, handlerCallsOf, txPayloads, ih]

/-! ## Claim theorems -/

/-- C1: whenever `reconnect` is called with attempt counter `c` below
the maximum, it increments the counter to `c + 1`, sleeps exactly
`reconnect_interval * min (c + 1) 5`, and then invokes `connect` again
with the very same request value; with the default 5-second base
interval the backoff durations for counters 0,1,2,... entering
`reconnect` are 5,10,15,20,25,25,25,... seconds. -/
theorem reconnect_below_max_backoff (st : GrpcStreamManager) (req c : Nat)
    (hc : st.reconnect_attempts = c) (h : c < st.max_reconnect_attempts) :
    reconnect st req
      = .proceed { st with reconnect_attempts := c + 1 }
          (st.reconnect_interval * min (c + 1) 5) req
    ∧ (List.range 7).map
        (fun n =>
          (reconnect { newManager "node" with reconnect_attempts := n } 0).backoffOf)
      = [some 5, some 10, some 15, some 20, some 25, some 25, some 25] := by
  constructor
  · subst hc
    have hng : ¬ (st.reconnect_attempts ≥ st.max_reconnect_attempts) :=
      Nat.not_le.mpr h
    simp [reconnect, hng]
  · decide

/-- C5: whenever `reconnect` is called with attempt counter at or above
the maximum, it returns the `RetryExhausted` failure immediately — no
sleep, no counter change — and, when reachable (max = 0), this error
terminates the whole `connect` cycle, ignoring any remaining episodes. -/
theorem reconnect_at_max_exhausts (st : GrpcStreamManager) (req : Nat)
    (h : st.max_reconnect_attempts ≤ st.reconnect_attempts) :
    reconnect st req = .retryExhausted
    ∧ (st.max_reconnect_attempts = 0 →
        ∀ (items : List StreamItem) (sends : List Bool)
          (rest : List Episode) (req2 : Nat),
          connectRun st (⟨true, .streamErr :: items, sends⟩ :: rest) req2
            = ⟨{ st with is_connected := false, reconnect_attempts := 0 },
                subscribeActs req2 ++ [.setConnected false],
                .err .retryExhausted⟩) := by
  constructor
  · simp [reconnect, h]
  · intro hmax items sends rest req2
    simp [connectRun, receiveLoop, afterSubscribe, reconnect, hmax]

/-- C6: after every successful (re)subscription inside `connect`, the
attempt counter is 0 and the connected flag is `true`, and the
subsequent run is completely independent of the counter and flag values
the manager held before the subscription succeeded. -/
theorem connect_success_resets (st : GrpcStreamManager) (ep : Episode)
    (rest : List Episode) (req : Nat) (hsub : ep.subscribeOk = true) :
    (afterSubscribe st).reconnect_attempts = 0
    ∧ (afterSubscribe st).is_connected = true
    ∧ (∀ c b, connectRun { st with reconnect_attempts := c, is_connected := b }
          (ep :: rest) req = connectRun st (ep :: rest) req)
    ∧ ∃ t, (connectRun st (ep :: rest) req).trace
        = .subscribeCall req :: .setConnected true :: .resetAttempts :: t := by
  refine ⟨rfl, rfl, ?_, ?_⟩
  · intro c b
    have key : afterSubscribe { st with reconnect_attempts := c, is_connected := b }
        = afterSubscribe st := rfl
    simp only [connectRun, hsub, if_true, key]
  · simp only [connectRun, hsub, if_true]
    cases receiveLoop (afterSubscribe st) ep.items ep.sendResults with
    | cleanEnd st2 tr =>
      exact ⟨tr ++ (connectRun st2 rest req).trace, by simp [subscribeActs]⟩
    | errored st2 tr =>
      dsimp only
      cases reconnect st2 req with
      | retryExhausted => exact ⟨tr, by simp [subscribeActs]⟩
      | proceed st3 d req' =>
        exact ⟨tr ++ .sleep d :: (connectRun st3 rest req').trace,
          by simp [subscribeActs]⟩
    | fatal st2 tr e => exact ⟨tr, by simp [subscribeActs]⟩

/-- C7: on a healthy stream (no stream error, all outbound sends
succeeding), each `Ping` update produces exactly one outbound
acknowledgement carrying the fixed id 1, emitted in place before the
next inbound update is processed, while `Pong` and unrecognized updates
produce no outbound message and no handler invocation — the receive
loop's trace is exactly the item-by-item spec dispatch. -/
theorem ping_ack_exactly_once (st : GrpcStreamManager) (items : List StreamItem)
    (sends : List Bool) (hne : ∀ it ∈ items, it ≠ .streamErr)
    (hsd : ∀ b ∈ sends, b = true) :
    receiveLoop st items sends = .cleanEnd st (specDispatchAll st.endpoint items)
    ∧ (specDispatchAll st.endpoint items).filter isPingAckAct
        = List.replicate (items.countP isPingItem) (Act.sendPingAck 1)
    ∧ ∀ it ∈ items,
        (it = .ok (some .pong) ∨ it = .ok (some .otherVariant) ∨ it = .ok none) →
        specDispatch st.endpoint it = [] := by
  refine ⟨receiveLoop_clean_spec st items sends hne hsd,
    specDispatchAll_acks st.endpoint items, ?_⟩
  intro it _ h
  rcases h with rfl | rfl | rfl <;> rfl

/-- C8: on a healthy stream, the handler is invoked exactly once per
`Transaction` update, in arrival order, tagged with the configured
endpoint identity; the sequential trace semantics makes each handler
call complete before the next inbound update is dispatched. -/
theorem transactions_delivered_in_order (st : GrpcStreamManager)
    (items : List StreamItem) (sends : List Bool)
    (hne : ∀ it ∈ items, it ≠ .streamErr) (hsd : ∀ b ∈ sends, b = true) :
    receiveLoop st items sends = .cleanEnd st (specDispatchAll st.endpoint items)
    ∧ handlerCallsOf (specDispatchAll st.endpoint items)
        = (txPayloads items).map (fun tx => (tx, st.endpoint)) :=
  ⟨receiveLoop_clean_spec st items sends hne hsd,
    specDispatchAll_handlers st.endpoint items⟩

theorem connectRun_trace_head (st : GrpcStreamManager) (ep : Episode)
    (rest : List Episode) (req : Nat) :
    ∃ t, (connectRun st (ep :: rest) req).trace = .subscribeCall req :: t := by
  by_cases h2 : ep.subscribeOk = true
  · simp only [connectRun, h2, if_true]
    cases receiveLoop (afterSubscribe st) ep.items ep.sendResults with
    | cleanEnd s t =>
      exact ⟨.setConnected true :: .resetAttempts ::
        (t ++ (connectRun s rest req).trace), by simp [subscribeActs]⟩
    | errored s t =>
      dsimp only
      cases reconnect s req with
      | retryExhausted =>
        exact ⟨.setConnected true :: .resetAttempts :: t, by simp [subscribeActs]⟩
      | proceed s3 d r =>
        exact ⟨.setConnected true :: .resetAttempts ::
          (t ++ .sleep d :: (connectRun s3 rest r).trace), by simp [subscribeActs]⟩
    | fatal s t e =>
      exact ⟨.setConnected true :: .resetAttempts :: t, by simp [subscribeActs]⟩
  · simp only [connectRun, h2, if_false, Bool.false_eq_true]
    exact ⟨[], rfl⟩

/-- C10: when the inbound stream ends by yielding no further updates
(never an error value), `connect` falls back into its outer loop and
immediately issues a new subscription with the same request: no backoff
sleep, no counter increment, and no `is_connected = false` assignment
happen in between. -/
theorem clean_end_resubscribes (st st2 : GrpcStreamManager) (ep : Episode)
    (rest : List Episode) (req : Nat) (tr : List Act)
    (hsub : ep.subscribeOk = true)
    (hcl : receiveLoop (afterSubscribe st) ep.items ep.sendResults
      = .cleanEnd st2 tr) :
    connectRun st (ep :: rest) req
      = ⟨(connectRun st2 rest req).state,
          subscribeActs req ++ tr ++ (connectRun st2 rest req).trace,
          (connectRun st2 rest req).result⟩
    ∧ st2 = afterSubscribe st
    ∧ st2.is_connected = true
    ∧ st2.reconnect_attempts = 0
    ∧ (∀ d, Act.sleep d ∉ tr)
    ∧ Act.setConnected false ∉ tr
    ∧ ∀ ep2 rest2, rest = ep2 :: rest2 →
        ∃ t, (connectRun st2 rest req).trace = .subscribeCall req :: t := by
  obtain ⟨hs2, ht⟩ := (receiveLoop_inv _ _ _).1 _ _ hcl
  refine ⟨?_, hs2, by rw [hs2]; rfl, by rw [hs2]; rfl,
    streamActs_no_sleep ht, ?_, ?_⟩
  · simp only [connectRun, hsub, if_true, hcl]
  · intro hmem
    have := ht _ hmem
    simp [streamAct] at this
  · intro ep2 rest2 hrest
    subst hrest
    exact connectRun_trace_head st2 ep2 rest2 req

/-- C2 counterexample: with the default configuration, 11 consecutive
stream failures (each followed by a successful resubscription, as the
code's retry path always resubscribes) produce eleven 5-second sleeps —
the 10th failure sleeps 5s, not 25s — and the run is still going
afterwards instead of returning `RetryExhausted`. -/
theorem eleven_failures_counterexample :
    ((connectRun (newManager "cx2")
        (List.replicate 11 ⟨true, [.streamErr], []⟩) 9).trace.filter isSleepAct
      = List.replicate 11 (Act.sleep 5))
    ∧ (connectRun (newManager "cx2")
        (List.replicate 11 ⟨true, [.streamErr], []⟩) 9).result = .outOfScript
    ∧ Act.sleep 25 ∉ (connectRun (newManager "cx2")
        (List.replicate 11 ⟨true, [.streamErr], []⟩) 9).trace := by
  decide

/-- C2 (amended): every successful resubscription resets the attempt
counter to 0, and the retry path always resubscribes before the next
stream failure can occur, so whenever `max_reconnect_attempts ≥ 1`
(default 10) a run never returns `RetryExhausted` and every backoff
sleep lasts exactly one base interval (5s with defaults). -/
theorem default_config_never_exhausts (st : GrpcStreamManager)
    (script : List Episode) (req : Nat)
    (hmax : 1 ≤ st.max_reconnect_attempts) :
    (connectRun st script req).result ≠ .err .retryExhausted
    ∧ ∀ d, Act.sleep d ∈ (connectRun st script req).trace →
        d = st.reconnect_interval :=
  connectRun_reset_backoff script st req hmax

/-- C3 counterexample: a stream that terminates by yielding no further
updates (twice in a row) triggers neither the `is_connected = false`
assignment nor `reconnect`: the trace holds only the two subscriptions
and their bookkeeping, no sleep, and the flag is still `true`. -/
theorem stream_end_no_cleanup_counterexample :
    ((connectRun (newManager "cx3") [⟨true, [], []⟩, ⟨true, [], []⟩] 7).state.is_connected
      = true)
    ∧ (connectRun (newManager "cx3") [⟨true, [], []⟩, ⟨true, [], []⟩] 7).trace
      = [.subscribeCall 7, .setConnected true, .resetAttempts,
         .subscribeCall 7, .setConnected true, .resetAttempts]
    ∧ (connectRun (newManager "cx3") [⟨true, [], []⟩, ⟨true, [], []⟩] 7).result
      = .outOfScript
    ∧ Act.setConnected false
        ∉ (connectRun (newManager "cx3") [⟨true, [], []⟩, ⟨true, [], []⟩] 7).trace := by
  decide

/-- C3 (amended): when the stream ends by yielding an error value, the
failure is handled by the error path: everything after the error on that
stream instance is ignored (reading never resumes), `is_connected` is
set to `false`, and `reconnect` runs with the same request — with
attempts remaining it sleeps one backoff and resubscribes with that
request.  A stream that ends without an error value takes the immediate
resubscription path instead. -/
theorem stream_error_cleanup (st : GrpcStreamManager) (items : List StreamItem)
    (sends : List Bool) (rest : List Episode) (req : Nat)
    (hmax : 1 ≤ st.max_reconnect_attempts) :
    connectRun st (⟨true, .streamErr :: items, sends⟩ :: rest) req
      = connectRun st (⟨true, [.streamErr], []⟩ :: rest) req
    ∧ connectRun st (⟨true, [.streamErr], []⟩ :: rest) req
      = ⟨(connectRun { st with is_connected := false, reconnect_attempts := 1 }
            rest req).state,
          subscribeActs req
            ++ .setConnected false
              :: .sleep st.reconnect_interval
              :: (connectRun { st with is_connected := false, reconnect_attempts := 1 } rest req).trace,
          (connectRun { st with is_connected := false, reconnect_attempts := 1 }
            rest req).result⟩ := by
  have hng : ¬ (0 ≥ st.max_reconnect_attempts) := by omega
  have hrc : reconnect { st with is_connected := false, reconnect_attempts := 0 } req
      = .proceed { st with is_connected := false, reconnect_attempts := 1 }
          st.reconnect_interval req := by
    simp [reconnect, hng]
  refine ⟨rfl, ?_⟩
  simp only [connectRun, receiveLoop, afterSubscribe]
  rw [hrc]
  simp [subscribeActs]

/-- C4 counterexample: a failed heartbeat-acknowledgement send does not
trigger a reconnect: the run ends at once with the send error — no
backoff sleep, no second subscription (the provided second episode is
never consumed), unlike a stream error at the same position. -/
theorem ping_send_failure_counterexample :
    ((connectRun (newManager "cx4")
        [⟨true, [.ok (some .ping)], [false]⟩, ⟨true, [.streamErr], []⟩] 3).result
      = .err .sendFailed)
    ∧ (connectRun (newManager "cx4")
        [⟨true, [.ok (some .ping)], [false]⟩, ⟨true, [.streamErr], []⟩] 3).trace
      = [.subscribeCall 3, .setConnected true, .resetAttempts]
    ∧ (connectRun (newManager "cx4")
        [⟨true, [.ok (some .ping)], [false]⟩, ⟨true, [.streamErr], []⟩] 3).trace.filter
          isSleepAct = [] := by
  decide

/-- C4 (amended): if the outbound heartbeat-acknowledgement send fails
while answering a `Ping`, the send error propagates straight out of
`connect`: the cycle terminates with that error, with no backoff sleep
and no reconnect, and the connected flag is left `true`.  (Only an
error yielded by the stream itself takes the reconnect path.) -/
theorem ping_send_failure_fatal (st : GrpcStreamManager)
    (items : List StreamItem) (sends : List Bool) (rest : List Episode)
    (req : Nat) :
    connectRun st (⟨true, .ok (some .ping) :: items, false :: sends⟩ :: rest) req
      = ⟨afterSubscribe st, subscribeActs req, .err .sendFailed⟩ := by
  simp [connectRun, receiveLoop, takeSend]

/-- C9 counterexample: after a failed heartbeat send the `connect` cycle
has returned — no receive loop is consuming anything — yet the
connected flag is still `true`. -/
theorem connected_flag_counterexample :
    ((connectRun (newManager "cx9")
        [⟨true, [.ok (some .ping)], [false]⟩] 1).result = .err .sendFailed)
    ∧ (connectRun (newManager "cx9")
        [⟨true, [.ok (some .ping)], [false]⟩] 1).state.is_connected = true := by
  decide

/-- C9 (amended): the connected flag is `false` at construction, is
`false` during every backoff sleep and `true` at every handler call and
outbound acknowledgement (replaying the flag assignments along any run
trace), and is `false` in the final state whenever the run ends with
`RetryExhausted`; however it can remain `true` after a run that ends
with a failed heartbeat send, and while resubscribing after a stream
that ended without an error value. -/
theorem connected_flag_discipline (e : String) (st : GrpcStreamManager)
    (script : List Episode) (req : Nat) :
    (newManager e).is_connected = false
    ∧ flagOk st.is_connected (connectRun st script req).trace = true
    ∧ ((connectRun st script req).result = .err .retryExhausted →
        (connectRun st script req).state.is_connected = false) :=
  ⟨rfl, flagOk_connectRun script st req, exhausted_flag_connectRun script st req⟩

/-! ## Witnesses -/

theorem reconnect_below_max_backoff_witness :
    reconnect ⟨"node", false, 3, 10, 5⟩ 7
      = .proceed ⟨"node", false, 4, 10, 5⟩ 20 7 := by
  have h := reconnect_below_max_backoff ⟨"node", false, 3, 10, 5⟩ 7 3 rfl (by decide)
  exact h.1

theorem default_config_never_exhausts_witness :
    (connectRun (newManager "w2") [⟨true, [.streamErr], []⟩] 4).result
      ≠ .err .retryExhausted
    ∧ (5 : Nat) = (newManager "w2").reconnect_interval := by
  have h := default_config_never_exhausts (newManager "w2")
    [⟨true, [.streamErr], []⟩] 4 (by decide)
  exact ⟨h.1, h.2 5 (by decide)⟩

theorem stream_error_cleanup_witness :
    connectRun (newManager "w3")
        [⟨true, [.streamErr, .ok (some .pong)], [true]⟩, ⟨true, [], []⟩] 6
      = connectRun (newManager "w3")
          [⟨true, [.streamErr], []⟩, ⟨true, [], []⟩] 6 := by
  have h := stream_error_cleanup (newManager "w3") [.ok (some .pong)] [true]
    [⟨true, [], []⟩] 6 (by decide)
  exact h.1

theorem reconnect_at_max_exhausts_witness :
    reconnect ⟨"w5", false, 0, 0, 5⟩ 5 = .retryExhausted
    ∧ connectRun ⟨"w5", false, 0, 0, 5⟩ [⟨true, [.streamErr], []⟩] 2
      = ⟨⟨"w5", false, 0, 0, 5⟩,
          [.subscribeCall 2, .setConnected true, .resetAttempts,
           .setConnected false],
          .err .retryExhausted⟩ := by
  have h := reconnect_at_max_exhausts ⟨"w5", false, 0, 0, 5⟩ 5 (by decide)
  refine ⟨h.1, ?_⟩
  have h2 := h.2 rfl [] [] [] 2
  simpa [subscribeActs] using h2

theorem connect_success_resets_witness :
    (afterSubscribe ⟨"w6", false, 7, 10, 5⟩).reconnect_attempts = 0
    ∧ (afterSubscribe ⟨"w6", false, 7, 10, 5⟩).is_connected = true
    ∧ connectRun ⟨"w6", true, 9, 10, 5⟩ [⟨true, [], []⟩] 3
      = connectRun ⟨"w6", false, 7, 10, 5⟩ [⟨true, [], []⟩] 3 := by
  have h := connect_success_resets ⟨"w6", false, 7, 10, 5⟩ ⟨true, [], []⟩ [] 3 rfl
  exact ⟨h.1, h.2.1, h.2.2.1 9 true⟩

theorem ping_ack_exactly_once_witness :
    receiveLoop ⟨"w7", true, 0, 10, 5⟩
        [.ok (some .ping), .ok (some .pong), .ok (some .ping)] [true]
      = .cleanEnd ⟨"w7", true, 0, 10, 5⟩ [.sendPingAck 1, .sendPingAck 1] := by
  have h := ping_ack_exactly_once ⟨"w7", true, 0, 10, 5⟩
    [.ok (some .ping), .ok (some .pong), .ok (some .ping)] [true]
    (by decide) (by decide)
  simpa [specDispatchAll, specDispatch] using h.1

theorem transactions_delivered_in_order_witness :
    receiveLoop ⟨"w8", true, 0, 10, 5⟩
        [.ok (some (.transaction 4)), .ok (some .ping),
         .ok (some (.transaction 9))] [true]
      = .cleanEnd ⟨"w8", true, 0, 10, 5⟩
          [.handlerCall 4 "w8", .sendPingAck 1, .handlerCall 9 "w8"]
    ∧ handlerCallsOf [.handlerCall 4 "w8", .sendPingAck 1, .handlerCall 9 "w8"]
      = [(4, "w8"), (9, "w8")] := by
  have h := transactions_delivered_in_order ⟨"w8", true, 0, 10, 5⟩
    [.ok (some (.transaction 4)), .ok (some .ping),
     .ok (some (.transaction 9))] [true] (by decide) (by decide)
  exact ⟨by simpa [specDispatchAll, specDispatch] using h.1, rfl⟩

theorem connected_flag_discipline_witness :
    (newManager "w9").is_connected = false
    ∧ flagOk false
        (connectRun ⟨"w9", false, 0, 0, 5⟩ [⟨true, [.streamErr], []⟩] 2).trace
      = true
    ∧ (connectRun ⟨"w9", false, 0, 0, 5⟩
        [⟨true, [.streamErr], []⟩] 2).state.is_connected = false := by
  have h := connected_flag_discipline "w9" ⟨"w9", false, 0, 0, 5⟩
    [⟨true, [.streamErr], []⟩] 2
  exact ⟨h.1, h.2.1, h.2.2 (by decide)⟩

theorem clean_end_resubscribes_witness :
    connectRun (newManager "wX") [⟨true, [.ok (some .pong)], []⟩, ⟨true, [], []⟩] 8
      = ⟨(connectRun (afterSubscribe (newManager "wX")) [⟨true, [], []⟩] 8).state,
          subscribeActs 8 ++ []
            ++ (connectRun (afterSubscribe (newManager "wX")) [⟨true, [], []⟩] 8).trace,
          (connectRun (afterSubscribe (newManager "wX")) [⟨true, [], []⟩] 8).result⟩ := by
  have h := clean_end_resubscribes (newManager "wX") (afterSubscribe (newManager "wX"))
    ⟨true, [.ok (some .pong)], []⟩ [⟨true, [], []⟩] 8 [] rfl rfl
  exact h.1
